import Mathlib

/-!
# Stats aggregator (aggregator/app.go)

A shallow embedding of the aggregator: the published snapshot cell with
getData and setData, the query handler, the pacing of the refresh loop in
main, the getField path lookup, and one refresh cycle loadData
(discovery, readiness filter, concurrent fetch fan-out, serialisation,
publication).

Everything the program obtains from outside (the cluster client, the HTTP
client, encoding/json, the goroutine scheduler) is a field of Env; the
control flow of the source is kept as it is written.
-/

namespace Aggregator

/-! ## Data model -/

/-- Contents of a Go byte slice, one number below 256 per byte.  A nil slice
and an empty slice both have no bytes and are the empty list. -/
abbrev Bytes := List Nat

/-- The bytes of an ASCII text. -/
def asciiBytes (s : String) : Bytes := s.toList.map Char.toNat

/-- A Go slice value: nil, or a slice holding the listed elements. -/
inductive GoSlice (α : Type) where
  | nilSlice : GoSlice α
  | mk (elems : List α) : GoSlice α
deriving DecidableEq, Repr

/-- The elements of a slice (none for the nil slice). -/
def GoSlice.toList {α : Type} : GoSlice α → List α
  | .nilSlice => []
  | .mk xs => xs

/-- Go builtin len. -/
def GoSlice.len {α : Type} (s : GoSlice α) : Nat := s.toList.length

/-- Go builtin append of one element; the result is never nil. -/
def GoSlice.append {α : Type} (s : GoSlice α) (x : α) : GoSlice α :=
  .mk (s.toList ++ [x])

/-- Type Stat (lines 49-53).  Rps holds the bit pattern of the float64; the
program stores and copies it and never computes with it. -/
structure Stat where
  Version : String
  Rps : Nat
  TotalRequests : Nat
deriving DecidableEq, Repr

/-- Type Response (lines 55-58). -/
structure Response where
  Servers : Nat
  Stats : GoSlice Stat
deriving DecidableEq, Repr

/-- The fields of v1.PodStatus the program reads. -/
structure PodStatus where
  Phase : String
  PodIP : String
deriving DecidableEq, Repr

/-- The part of v1.Pod the program reads. -/
structure Pod where
  Status : PodStatus
deriving DecidableEq, Repr

/-- The package-level variables that change while the program runs: the
published snapshot serveData (line 45) and, for the record of what was
reported, the text written by fmt.Printf.  The package-level mutex (line 46)
makes the bodies of getData and setData atomic steps, which is the granularity
of this model. -/
structure Process where
  serveData : Bytes
  stdout : List String
deriving DecidableEq, Repr

/-- The process at start-up: serveData is the empty slice of line 45. -/
def Process.initial : Process := { serveData := [], stdout := [] }

/-! ## Snapshot store (lines 60-70) -/

/-- Function getData (lines 60-64): the value read, and the process after the
call. -/
def getData (p : Process) : Bytes × Process := (p.serveData, p)

/-- Function setData (lines 66-70). -/
def setData (data : Bytes) (p : Process) : Process := { p with serveData := data }

/-- An operation on the snapshot store. -/
inductive StoreOp where
  | set (data : Bytes) : StoreOp
  | get : StoreOp
deriving DecidableEq, Repr

/-- Runs a sequence of store operations, each as one atomic step.  The trace
has one entry per operation: what a getData returned, nothing for a setData. -/
def runStore : List StoreOp → Process → List (Option Bytes) × Process
  | [], p => ([], p)
  | .set data :: ops, p =>
    let rest := runStore ops (setData data p)
    (none :: rest.1, rest.2)
  | .get :: ops, p =>
    let r := getData p
    let rest := runStore ops r.2
    (some r.1 :: rest.1, rest.2)

/-- Specification side of the store: the argument of the last setData in a
sequence of operations, or the given value when there is none. -/
def lastPublished (init : Bytes) : List StoreOp → Bytes
  | [] => init
  | .set data :: ops => lastPublished data ops
  | .get :: ops => lastPublished init ops

/-! ## HTTP handlers (lines 72-81) -/

/-- What a handler has written to its http.ResponseWriter: the header map, the
status code once the header has been written, and the body. -/
structure ResponseWriter where
  header : List (String × String)
  status : Option Nat
  body : Bytes
deriving DecidableEq, Repr

/-- A fresh response writer, as the server hands it to a handler. -/
def ResponseWriter.fresh : ResponseWriter := { header := [], status := none, body := [] }

/-- Header().Set: replaces the value of the key. -/
def ResponseWriter.headerSet (key value : String) (w : ResponseWriter) : ResponseWriter :=
  { w with header := (w.header.filter fun kv => kv.1 != key) ++ [(key, value)] }

/-- WriteHeader: the first call fixes the status code. -/
def ResponseWriter.WriteHeader (code : Nat) (w : ResponseWriter) : ResponseWriter :=
  match w.status with
  | some _ => w
  | none => { w with status := some code }

/-- Write: writes the header with status 200 if it was not written yet, then
appends to the body. -/
def ResponseWriter.Write (data : Bytes) (w : ResponseWriter) : ResponseWriter :=
  let w1 := w.WriteHeader 200
  { w1 with body := w1.body ++ data }

/-- Constant http.StatusOK. -/
def StatusOK : Nat := 200

/-- Function serveHTTP (lines 72-76). -/
def serveHTTP (p : Process) (res : ResponseWriter) : ResponseWriter × Process :=
  let res1 := res.headerSet "Access-Control-Allow-Origin" "*"
  let res2 := res1.WriteHeader StatusOK
  let r := getData p
  (res2.Write r.1, r.2)

/-- Function healthCheck (lines 78-81). -/
def healthCheck (res : ResponseWriter) : ResponseWriter :=
  (res.WriteHeader StatusOK).Write (asciiBytes "ok")

/-! ## Refresh loop pacing (lines 90-98) -/

/-- Wrap-around of int64 arithmetic, modulo 2^64 into the signed range
(time.Duration is an int64 count of nanoseconds). -/
def int64Wrap (x : Int) : Int := (x + 2 ^ 63) % 2 ^ 64 - 2 ^ 63

/-- A value an int64 can hold. -/
def InInt64 (x : Int) : Prop := -(2 ^ 63) ≤ x ∧ x < 2 ^ 63

/-- Lines 94-96 of main: the argument of the call of time.Sleep, or none when
the call is not made. -/
def sleepCall (sleep latency : Int) : Option Int :=
  if latency < sleep then some (int64Wrap (sleep - latency)) else none

/-- Function time.Sleep: pauses for the given duration; a duration that is
zero or negative returns at once. -/
def timeSleep (d : Int) : Int := if d ≤ 0 then 0 else d

/-- How long one iteration of the loop in main pauses after loadData took
latency nanoseconds. -/
def sleepDuration (sleep latency : Int) : Int :=
  match sleepCall sleep latency with
  | some d => timeSleep d
  | none => 0

/-- Time from the start of one cycle to the start of the next, the work of the
loop other than loadData and time.Sleep taken as instantaneous. -/
def cyclePeriod (sleep latency : Int) : Int := latency + sleepDuration sleep latency

/-! ## Path lookup getField (lines 101-110) -/

/-- A Go interface value as decoded JSON holds it; object is a map from
strings to interface values, given by its entries (lookup takes the first
entry of a key). -/
inductive Value where
  | null : Value
  | bool (b : Bool) : Value
  | number (bits : Nat) : Value
  | str (s : String) : Value
  | array (xs : List Value) : Value
  | object (entries : List (String × Value)) : Value

/-- A Go map from strings to interface values. -/
abbrev GoMap := List (String × Value)

/-- The two run-time panics getField can raise. -/
inductive Panic where
  | indexOutOfRange : Panic
  | interfaceConversion : Panic
deriving DecidableEq, Repr

/-- Function getField (lines 101-110).  The result is the returned pair, or the
panic that ends the call. -/
def getField (obj : GoMap) : List String → Except Panic (Value × Bool)
  | [] => .error .indexOutOfRange
  | f :: rest =>
    match obj.lookup f with
    | none => .ok (.null, false)
    | some nextObj =>
      if (f :: rest).length > 1 then
        match nextObj with
        | .object m => getField m rest
        | _ => .error .interfaceConversion
      else .ok (nextObj, true)

/-- Specification side of getField: following the keys through the nested maps
reaches the value v. -/
inductive Reaches : GoMap → List String → Value → Prop where
  | last {obj : GoMap} {f : String} {v : Value} :
      obj.lookup f = some v → Reaches obj [f] v
  | step {obj m : GoMap} {f g : String} {rest : List String} {v : Value} :
      obj.lookup f = some (.object m) → Reaches m (g :: rest) v →
      Reaches obj (f :: g :: rest) v

/-- Specification side of getField: some key along the path is absent from the
map reached at that point. -/
inductive KeyAbsent : GoMap → List String → Prop where
  | here {obj : GoMap} {f : String} {rest : List String} :
      obj.lookup f = none → KeyAbsent obj (f :: rest)
  | later {obj m : GoMap} {f g : String} {rest : List String} :
      obj.lookup f = some (.object m) → KeyAbsent m (g :: rest) →
      KeyAbsent obj (f :: g :: rest)

/-- Specification side of getField: the path reaches, at a key that is not its
last, a value that is not a map. -/
inductive NonMapBeforeLast : GoMap → List String → Prop where
  | here {obj : GoMap} {f g : String} {rest : List String} {v : Value} :
      obj.lookup f = some v → (∀ m, v ≠ .object m) →
      NonMapBeforeLast obj (f :: g :: rest)
  | later {obj m : GoMap} {f g : String} {rest : List String} :
      obj.lookup f = some (.object m) → NonMapBeforeLast m (g :: rest) →
      NonMapBeforeLast obj (f :: g :: rest)

/-! ## One refresh cycle: loadData (lines 112-190) -/

/-- Handle of a rest.Config. -/
structure Config where
  id : Nat
deriving DecidableEq, Repr

/-- Handle of a kubernetes.Clientset. -/
structure Clientset where
  id : Nat
deriving DecidableEq, Repr

/-- Handle of a labels.Selector. -/
structure Selector where
  id : Nat
deriving DecidableEq, Repr

/-- Handle of the body of an HTTP response. -/
structure HttpBody where
  id : Nat
deriving DecidableEq, Repr

/-- Everything one cycle obtains from outside the program.  A call that
returns a Go error returns its text on the error side.  The fetch of the
goroutine started for index ix is answered by httpGet at ix.  The field
schedule is the order in which the started goroutines run to completion. -/
structure Env where
  inClusterConfig : Except String Config
  newForConfig : Config → Except String Clientset
  selector : String
  labelsParse : String → Except String Selector
  labelsEverything : Selector
  podsList : Clientset → Selector → Except String (List Pod)
  httpGet : Nat → String → Except String HttpBody
  readAll : HttpBody → Except String Bytes
  jsonUnmarshal : Bytes → Except String Stat
  jsonMarshal : Response → Except String Bytes
  schedule : List Nat

/-- Lines 113-140 of loadData: discovery.  The error side carries the message
printed before the early return. -/
def discover (env : Env) : Except String (List Pod) :=
  match env.inClusterConfig with
  | .error err => .error ("Error creating client config: " ++ err)
  | .ok config =>
    match env.newForConfig config with
    | .error err => .error ("Error creating client: " ++ err)
    | .ok c =>
      match (if env.selector ≠ "" then env.labelsParse env.selector
             else .ok env.labelsEverything) with
      | .error err => .error ("Parse label selector err: " ++ err)
      | .ok labelSelector =>
        match env.podsList c labelSelector with
        | .error err => .error ("Error getting pods: " ++ err)
        | .ok pods => .ok pods

/-- Lines 141-148 of loadData: the loop that collects the ready pods. -/
def readyInstances (items : List Pod) : List Pod :=
  items.foldl
    (fun instances pod =>
      if pod.Status.PodIP = "" ∨ pod.Status.Phase ≠ "Running" then instances
      else instances ++ [pod])
    []

/-- Lines 159-177 of the goroutine: the fetch of one pod.  The error side
carries the message printed before the goroutine returns. -/
def fetchStat (env : Env) (ix : Nat) (pod : Pod) : Except String Stat :=
  let url := "http://" ++ pod.Status.PodIP ++ ":8080/api/stats"
  match env.httpGet ix url with
  | .error err => .error ("Error getting: " ++ err ++ "\n")
  | .ok resp =>
    match env.readAll resp with
    | .error err => .error ("Error reading: " ++ err ++ "\n")
    | .ok data =>
      match env.jsonUnmarshal data with
      | .error err => .error ("Error decoding: " ++ err ++ "\n")
      | .ok stat => .ok stat

/-- The variables the goroutines of one cycle share: the response being built
and the text printed so far. -/
structure FanState where
  response : Response
  stdout : List String
deriving DecidableEq, Repr

/-- Lines 157-181: the goroutine started for index ix, run to completion.  A
failed fetch prints and returns; a successful one appends its record under the
local mutex.  The loop of line 156 starts goroutines for the indices of
instances only; for any other index nothing happens. -/
def goroutine (env : Env) (instances : List Pod) (ix : Nat) (st : FanState) : FanState :=
  match instances[ix]? with
  | none => st
  | some pod =>
    match fetchStat env ix pod with
    | .error msg => { st with stdout := st.stdout ++ [msg] }
    | .ok stat =>
      { st with response := { st.response with Stats := st.response.Stats.append stat } }

/-- Lines 153-183: all goroutines of the cycle, completing in the order
order; wg.Wait returns once each has completed. -/
def fanOut (env : Env) (instances : List Pod) (order : List Nat) (st : FanState) : FanState :=
  order.foldl (fun acc ix => goroutine env instances ix acc) st

/-- The completion orders the WaitGroup allows for n goroutines: each of the
indices 0..n-1 exactly once. -/
def ValidSchedule (order : List Nat) (n : Nat) : Prop := order.Perm (List.range n)

/-- Lines 141-183 of loadData: from the listed pods to the aggregated response. -/
def aggregate (env : Env) (items : List Pod) (stdout : List String) : FanState :=
  let instances := readyInstances items
  let response : Response := { Servers := instances.length, Stats := .mk [] }
  fanOut env instances env.schedule { response := response, stdout := stdout }

/-- Function loadData (lines 112-190). -/
def loadData (env : Env) (p : Process) : Process :=
  match discover env with
  | .error msg => { p with stdout := p.stdout ++ [msg] }
  | .ok pods =>
    let st := aggregate env pods p.stdout
    let marshalled : Bytes × List String :=
      match env.jsonMarshal st.response with
      | .error err => ([], st.stdout ++ ["Error marshaling: " ++ err])
      | .ok data => (data, st.stdout)
    let p1 := setData marshalled.1 { p with stdout := marshalled.2 }
    { p1 with stdout := p1.stdout ++ ["Updated.\n"] }

/-! ## The wire format of the snapshot -/

/-- Joins encoded elements with commas. -/
def joinComma : List Bytes → Bytes
  | [] => []
  | [x] => x
  | x :: y :: rest => x ++ asciiBytes "," ++ joinComma (y :: rest)

/-- Modelled from the spec: json.Marshal of package encoding/json, applied to a
Response, is library code outside src/.  The document is the object with the
keys of the struct tags of lines 49-58, in field order: servers as a decimal
integer, stats as null for a nil slice and otherwise as the array of the
encoded records.  The encoding of one record (its string escaping and float
formatting, which can fail) is the parameter encodeStat. -/
def jsonMarshalResponse (encodeStat : Stat → Except String Bytes) (r : Response) :
    Except String Bytes :=
  let head := asciiBytes "\x7b\"servers\":" ++ asciiBytes (toString r.Servers) ++
    asciiBytes ",\"stats\":"
  match r.Stats with
  | .nilSlice => .ok (head ++ asciiBytes "null\x7d")
  | .mk stats =>
    match stats.mapM encodeStat with
    | .error err => .error err
    | .ok parts => .ok (head ++ asciiBytes "[" ++ joinComma parts ++ asciiBytes "]\x7d")

/-! ## Concrete cycles

A cycle in the shape of the end-to-end scenario of the specification: five
pods listed, three of them ready; two fetches succeed and one times out. -/

/-- A ready pod. -/
def podA : Pod := { Status := { Phase := "Running", PodIP := "10.0.0.1" } }

/-- A ready pod. -/
def podB : Pod := { Status := { Phase := "Running", PodIP := "10.0.0.2" } }

/-- A ready pod whose fetch times out in the scenario. -/
def podC : Pod := { Status := { Phase := "Running", PodIP := "10.0.0.3" } }

/-- A pod that is not running. -/
def podPending : Pod := { Status := { Phase := "Pending", PodIP := "10.0.0.4" } }

/-- A running pod without an address. -/
def podNoIP : Pod := { Status := { Phase := "Running", PodIP := "" } }

/-- The record v 1.0, rps 10.5, t 100. -/
def statA : Stat := { Version := "1.0", Rps := 0x4025000000000000, TotalRequests := 100 }

/-- The record v 1.0, rps 2.5, t 50. -/
def statB : Stat := { Version := "1.0", Rps := 0x4004000000000000, TotalRequests := 50 }

/-- The encoding of the two records of the scenario. -/
def scenarioEncodeStat (s : Stat) : Except String Bytes :=
  if s = statA then .ok (asciiBytes "\x7b\"v\":\"1.0\",\"rps\":10.5,\"t\":100\x7d")
  else if s = statB then .ok (asciiBytes "\x7b\"v\":\"1.0\",\"rps\":2.5,\"t\":50\x7d")
  else .error "json: unsupported value"

/-- The scenario: the goroutine of index 2 fails at the GET, the goroutines of
indices 0 and 1 decode statA and statB, and they complete in the order 2, 1, 0. -/
def scenarioEnv : Env where
  inClusterConfig := .ok { id := 0 }
  newForConfig := fun _ => .ok { id := 0 }
  selector := ""
  labelsParse := fun _ => .ok { id := 1 }
  labelsEverything := { id := 0 }
  podsList := fun _ _ => .ok [podA, podPending, podB, podNoIP, podC]
  httpGet := fun ix _ => if ix = 2 then .error "timeout" else .ok { id := ix }
  readAll := fun body => .ok [body.id]
  jsonUnmarshal := fun data =>
    if data = [0] then .ok statA
    else if data = [1] then .ok statB
    else .error "unexpected end of JSON input"
  jsonMarshal := jsonMarshalResponse scenarioEncodeStat
  schedule := [2, 1, 0]

/-- The scenario with an inventory in which no pod is ready. -/
def noReadyPodEnv : Env :=
  { scenarioEnv with podsList := fun _ _ => .ok [podPending, podNoIP], schedule := [] }

/-- A process that has published the empty-fleet document in an earlier cycle. -/
def publishedProcess : Process :=
  { serveData := asciiBytes "\x7b\"servers\":0,\"stats\":[]\x7d", stdout := ["Updated.\n"] }

/-! # Theorems -/

/-! ## Snapshot store -/

theorem runStore_get (ops : List StoreOp) (p : Process) (i : Nat)
    (h : ops[i]? = some .get) :
    (runStore ops p).1[i]? = some (some (lastPublished p.serveData (ops.take i))) := by
  induction ops generalizing p i with
  | nil => simp at h
  | cons op ops ih =>
    cases i with
    | zero =>
      simp at h
      subst h
      simp [runStore, getData, lastPublished]
    | succ i =>
      simp at h
      cases op with
      | set data => simpa [runStore, lastPublished, setData] using ih (setData data p) i h
      | get => simpa [runStore, lastPublished, getData] using ih p i h

theorem runStore_set (ops : List StoreOp) (p : Process) (i : Nat) (data : Bytes)
    (h : ops[i]? = some (.set data)) : (runStore ops p).1[i]? = some none := by
  induction ops generalizing p i with
  | nil => simp at h
  | cons op ops ih =>
    cases i with
    | zero =>
      simp at h
      subst h
      simp [runStore]
    | succ i =>
      simp at h
      cases op with
      | set d => simpa [runStore] using ih (setData d p) i h
      | get => simpa [runStore, getData] using ih p i h

theorem runStore_final (ops : List StoreOp) (p : Process) :
    (runStore ops p).2.serveData = lastPublished p.serveData ops := by
  induction ops generalizing p with
  | nil => rfl
  | cons op ops ih =>
    cases op with
    | set data => simpa [runStore, lastPublished, setData] using ih (setData data p)
    | get => simpa [runStore, lastPublished, getData] using ih p

theorem runStore_length (ops : List StoreOp) (p : Process) :
    (runStore ops p).1.length = ops.length := by
  induction ops generalizing p with
  | nil => rfl
  | cons op ops ih =>
    cases op with
    | set data => simpa [runStore] using ih (setData data p)
    | get => simpa [runStore] using ih (getData p).2

theorem lastPublished_mem (init : Bytes) (ops : List StoreOp) :
    lastPublished init ops = init ∨ StoreOp.set (lastPublished init ops) ∈ ops := by
  induction ops generalizing init with
  | nil => exact Or.inl rfl
  | cons op ops ih =>
    cases op with
    | set data =>
      rcases ih data with h | h
      · right; simp [lastPublished, h]
      · right; simp [lastPublished, h]
    | get =>
      rcases ih init with h | h
      · left; simpa [lastPublished] using h
      · right; simp [lastPublished, h]

/-- C7: in every finite sequence of setData and getData steps, each getData
returns exactly the bytes passed to the most recent setData before it (the
start value of the cell when there is none), so what a reader sees is always
one whole published value; the cell ends holding the last published value, and
getData leaves the process as it found it. -/
theorem snapshot_store_reads_last_published (ops : List StoreOp) (p : Process) :
    (∀ i : Nat, ops[i]? = some StoreOp.get →
      (runStore ops p).1[i]? = some (some (lastPublished p.serveData (ops.take i)))) ∧
    (∀ (i : Nat) (data : Bytes), (runStore ops p).1[i]? = some (some data) →
      data = p.serveData ∨ StoreOp.set data ∈ ops) ∧
    (runStore ops p).2.serveData = lastPublished p.serveData ops ∧
    (∀ q : Process, (getData q).2 = q ∧ (getData q).1 = q.serveData) := by
  refine ⟨fun i h => runStore_get ops p i h, ?_, runStore_final ops p, fun q => ⟨rfl, rfl⟩⟩
  intro i data h
  have hlen : i < ops.length := by
    have h1 : i < (runStore ops p).1.length := by
      by_contra hc
      rw [List.getElem?_eq_none (by omega)] at h
      simp at h
    rwa [runStore_length] at h1
  have hop : ops[i]? = some StoreOp.get := by
    rcases hget : ops[i] with data2 | _
    · exfalso
      have h2 := runStore_set ops p i data2 (by rw [List.getElem?_eq_getElem hlen, hget])
      rw [h] at h2
      simp at h2
    · rw [List.getElem?_eq_getElem hlen, hget]
  have := runStore_get ops p i hop
  rw [h] at this
  simp at this
  subst this
  rcases lastPublished_mem p.serveData (ops.take i) with h1 | h1
  · exact Or.inl h1
  · exact Or.inr (List.mem_of_mem_take h1)

theorem snapshot_store_reads_last_published_witness :
    (runStore [.get, .set [1, 2], .get, .set [3], .get] Process.initial).1[0]? =
      some (some []) ∧
    (runStore [.get, .set [1, 2], .get, .set [3], .get] Process.initial).1[2]? =
      some (some [1, 2]) ∧
    (runStore [.get, .set [1, 2], .get, .set [3], .get] Process.initial).1[4]? =
      some (some [3]) :=
  ⟨(snapshot_store_reads_last_published _ Process.initial).1 0 rfl,
    (snapshot_store_reads_last_published _ Process.initial).1 2 rfl,
    (snapshot_store_reads_last_published _ Process.initial).1 4 rfl⟩

/-! ## Query handler before the first publication -/

/-- C8: while serveData still holds its start value (no setData call yet),
whatever has been printed so far, getData returns the empty byte sequence, and
serveHTTP on a fresh response writer answers with status 200, an empty body
and the cross-origin header, leaving the process unchanged. -/
theorem serveHTTP_before_first_publish (out : List String) :
    (getData { Process.initial with stdout := out }).1 = [] ∧
    (serveHTTP { Process.initial with stdout := out } ResponseWriter.fresh).1.status = some 200 ∧
    (serveHTTP { Process.initial with stdout := out } ResponseWriter.fresh).1.body = [] ∧
    (serveHTTP { Process.initial with stdout := out } ResponseWriter.fresh).1.header =
      [("Access-Control-Allow-Origin", "*")] ∧
    (serveHTTP { Process.initial with stdout := out } ResponseWriter.fresh).2 =
      { Process.initial with stdout := out } := by
  refine ⟨rfl, rfl, rfl, ?_, rfl⟩
  simp [serveHTTP, ResponseWriter.fresh, ResponseWriter.headerSet, ResponseWriter.WriteHeader,
    ResponseWriter.Write, getData]

/-! ## Refresh loop pacing -/

theorem int64Wrap_of_inInt64 (x : Int) (h : InInt64 x) : int64Wrap x = x := by
  unfold InInt64 at h
  unfold int64Wrap
  norm_num at h ⊢
  omega

/-- C6: for every configured interval and every elapsed cycle time that an
int64 duration holds, the elapsed time being non-negative, the loop calls
time.Sleep with exactly interval - elapsed when elapsed < interval and does not
call it when elapsed >= interval; the pause is max(0, interval - elapsed),
never negative, and the time from cycle start to next cycle start is
max(interval, elapsed). -/
theorem refresh_loop_pacing (sleep latency : Int) (hs : InInt64 sleep)
    (hl : InInt64 latency) (h0 : 0 ≤ latency) :
    (latency < sleep → sleepCall sleep latency = some (sleep - latency)) ∧
    (sleep ≤ latency → sleepCall sleep latency = none) ∧
    sleepDuration sleep latency = max 0 (sleep - latency) ∧
    0 ≤ sleepDuration sleep latency ∧
    cyclePeriod sleep latency = max sleep latency := by
  have hw : latency < sleep → int64Wrap (sleep - latency) = sleep - latency := by
    intro hlt
    apply int64Wrap_of_inInt64
    unfold InInt64 at *
    omega
  by_cases hlt : latency < sleep
  · have hc : sleepCall sleep latency = some (sleep - latency) := by
      simp [sleepCall, hlt, hw hlt]
    have hd : sleepDuration sleep latency = sleep - latency := by
      simp only [sleepDuration, hc, timeSleep]
      rw [if_neg (by omega)]
    refine ⟨fun _ => hc, fun h => absurd hlt (by omega), ?_, ?_, ?_⟩
    · rw [hd, max_eq_right (by omega)]
    · rw [hd]; omega
    · rw [cyclePeriod, hd, max_eq_left (by omega)]; omega
  · have hc : sleepCall sleep latency = none := by simp [sleepCall, hlt]
    have hd : sleepDuration sleep latency = 0 := by simp [sleepDuration, hc]
    refine ⟨fun h => absurd h hlt, fun _ => hc, ?_, ?_, ?_⟩
    · rw [hd, max_eq_left (by omega)]
    · rw [hd]
    · rw [cyclePeriod, hd, max_eq_right (by omega)]; omega

theorem refresh_loop_pacing_witness :
    (InInt64 3000000000 ∧ InInt64 1000000000 ∧ (0 : Int) ≤ 1000000000) ∧
    ((1000000000 : Int) < 3000000000 →
      sleepCall 3000000000 1000000000 = some (3000000000 - 1000000000)) ∧
    ((3000000000 : Int) ≤ 1000000000 → sleepCall 3000000000 1000000000 = none) ∧
    sleepDuration 3000000000 1000000000 = max 0 (3000000000 - 1000000000) ∧
    0 ≤ sleepDuration 3000000000 1000000000 ∧
    cyclePeriod 3000000000 1000000000 = max 3000000000 1000000000 :=
  ⟨⟨by unfold InInt64; decide, by unfold InInt64; decide, by decide⟩,
    refresh_loop_pacing 3000000000 1000000000 (by unfold InInt64; decide)
      (by unfold InInt64; decide) (by decide)⟩

/-! ## Path lookup -/

theorem getField_true_iff (obj : GoMap) (fields : List String) (v : Value) :
    getField obj fields = .ok (v, true) ↔ Reaches obj fields v := by
  induction fields generalizing obj with
  | nil =>
    constructor
    · intro h; simp [getField] at h
    · intro h; cases h
  | cons f rest ih =>
    cases rest with
    | nil =>
      constructor
      · intro h
        cases hl : obj.lookup f with
        | none => simp [getField, hl] at h
        | some w =>
          simp [getField, hl] at h
          subst h
          exact Reaches.last hl
      · intro h
        cases h with
        | last hl => simp [getField, hl]
    | cons g rest =>
      constructor
      · intro h
        cases hl : obj.lookup f with
        | none => simp [getField, hl] at h
        | some w =>
          cases w with
          | object m =>
            have h2 : getField m (g :: rest) = .ok (v, true) := by
              simpa [getField, hl] using h
            exact Reaches.step hl ((ih m).1 h2)
          | _ => simp [getField, hl] at h
      · intro h
        cases h with
        | step hl hr =>
          have := (ih _).2 hr
          rw [getField]
          simp [hl]
          exact this

theorem getField_false_iff (obj : GoMap) (fields : List String) (v : Value) :
    getField obj fields = .ok (v, false) ↔ v = .null ∧ KeyAbsent obj fields := by
  induction fields generalizing obj with
  | nil =>
    constructor
    · intro h; simp [getField] at h
    · intro h; cases h.2
  | cons f rest ih =>
    cases rest with
    | nil =>
      constructor
      · intro h
        cases hl : obj.lookup f with
        | none =>
          simp [getField, hl] at h
          exact ⟨h.symm, KeyAbsent.here hl⟩
        | some w => simp [getField, hl] at h
      · rintro ⟨hv, h⟩
        cases h with
        | here hl => simp [getField, hl, hv]
    | cons g rest =>
      constructor
      · intro h
        cases hl : obj.lookup f with
        | none =>
          simp [getField, hl] at h
          exact ⟨h.symm, KeyAbsent.here hl⟩
        | some w =>
          cases w with
          | object m =>
            have h2 : getField m (g :: rest) = .ok (v, false) := by
              simpa [getField, hl] using h
            exact ⟨((ih m).1 h2).1, KeyAbsent.later hl ((ih m).1 h2).2⟩
          | _ => simp [getField, hl] at h
      · rintro ⟨hv, h⟩
        cases h with
        | here hl => simp [getField, hl, hv]
        | later hl hr =>
          have := (ih _).2 ⟨hv, hr⟩
          rw [getField]
          simp [hl]
          exact this

theorem getField_panic_iff (obj : GoMap) (fields : List String) (e : Panic) :
    getField obj fields = .error e ↔
      (fields = [] ∧ e = .indexOutOfRange) ∨
      (NonMapBeforeLast obj fields ∧ e = .interfaceConversion) := by
  induction fields generalizing obj with
  | nil =>
    constructor
    · intro h
      simp [getField] at h
      exact Or.inl ⟨rfl, h.symm⟩
    · rintro (⟨-, he⟩ | ⟨h, -⟩)
      · simp [getField, he]
      · cases h
  | cons f rest ih =>
    cases rest with
    | nil =>
      constructor
      · intro h
        cases hl : obj.lookup f with
        | none => simp [getField, hl] at h
        | some w => simp [getField, hl] at h
      · rintro (⟨h, -⟩ | ⟨h, -⟩)
        · simp at h
        · cases h
    | cons g rest =>
      constructor
      · intro h
        right
        cases hl : obj.lookup f with
        | none => simp [getField, hl] at h
        | some w =>
          cases w with
          | object m =>
            have h2 : getField m (g :: rest) = .error e := by
              simpa [getField, hl] using h
            rcases (ih m).1 h2 with ⟨h3, -⟩ | ⟨h3, he⟩
            · simp at h3
            · exact ⟨NonMapBeforeLast.later hl h3, he⟩
          | _ =>
            simp [getField, hl] at h
            exact ⟨NonMapBeforeLast.here hl (by intro m hm; cases hm), h.symm⟩
      · rintro (⟨h, -⟩ | ⟨h, he⟩)
        · simp at h
        · cases h with
          | here hl hn =>
            rename_i w
            cases w with
            | object m => exact absurd rfl (hn m)
            | _ => simp [getField, hl, he]
          | later hl hr =>
            have := (ih _).2 (Or.inr ⟨hr, he⟩)
            rw [getField]
            simp [hl]
            exact this

/-- C10: getField is a total function of its arguments (it recurses on the
tail of the path).  For a non-empty path on which every value reached before
the last key is a map, it returns a result: (v, true) exactly when following
the keys through the nested maps reaches v, and (nil, false) exactly when some
key along the path is absent from the map reached at that point, these being
the only results.  For an empty path, or a path that reaches a non-map value
before its last key, the call returns no result and panics. -/
theorem getField_path_lookup (obj : GoMap) (fields : List String) :
    (fields ≠ [] ∧ ¬ NonMapBeforeLast obj fields →
      (∃ r, getField obj fields = .ok r) ∧
      (∀ v, getField obj fields = .ok (v, true) ↔ Reaches obj fields v) ∧
      (getField obj fields = .ok (.null, false) ↔ KeyAbsent obj fields) ∧
      (∀ v, getField obj fields = .ok (v, false) → v = .null)) ∧
    (fields = [] ∨ NonMapBeforeLast obj fields →
      (∃ e, getField obj fields = .error e) ∧ ∀ r, getField obj fields ≠ .ok r) := by
  constructor
  · rintro ⟨hne, hmap⟩
    refine ⟨?_, fun v => getField_true_iff obj fields v, ?_, ?_⟩
    · cases hg : getField obj fields with
      | ok r => exact ⟨r, rfl⟩
      | error e =>
        rcases (getField_panic_iff obj fields e).1 hg with ⟨h, -⟩ | ⟨h, -⟩
        · exact absurd h hne
        · exact absurd h hmap
    · rw [getField_false_iff]
      simp
    · intro v h
      exact ((getField_false_iff obj fields v).1 h).1
  · intro h
    have hp : ∃ e, getField obj fields = .error e := by
      rcases h with h | h
      · exact ⟨_, (getField_panic_iff obj fields _).2 (Or.inl ⟨h, rfl⟩)⟩
      · exact ⟨_, (getField_panic_iff obj fields _).2 (Or.inr ⟨h, rfl⟩)⟩
    refine ⟨hp, ?_⟩
    intro r hr
    obtain ⟨e, he⟩ := hp
    rw [he] at hr
    cases hr

theorem getField_path_lookup_witness :
    Reaches [("status", .object [("podIP", .str "10.0.0.7")])] ["status", "podIP"]
      (.str "10.0.0.7") ∧
    KeyAbsent [("status", .object [("podIP", .str "10.0.0.7")])] ["status", "phase"] ∧
    ((∃ e, getField [("status", .str "up")] ["status", "podIP"] = .error e) ∧
      ∀ r, getField [("status", .str "up")] ["status", "podIP"] ≠ .ok r) := by
  refine ⟨?_, ?_, ?_⟩
  · refine (((getField_path_lookup _ _).1 ⟨by simp, ?_⟩).2.1 _).1 rfl
    intro h
    cases h with
    | here hl hn =>
      simp [List.lookup] at hl
      exact hn _ hl.symm
    | later hl hr => cases hr
  · refine ((getField_path_lookup _ _).1 ⟨by simp, ?_⟩).2.2.1.1 rfl
    intro h
    cases h with
    | here hl hn =>
      simp [List.lookup] at hl
      exact hn _ hl.symm
    | later hl hr => cases hr
  · refine (getField_path_lookup _ _).2 (Or.inr ?_)
    exact NonMapBeforeLast.here (v := .str "up") (by simp [List.lookup]) (by intro m hm; cases hm)

/-! ## Readiness filter -/

theorem readyInstances_foldl (items acc : List Pod) :
    items.foldl
      (fun instances pod =>
        if pod.Status.PodIP = "" ∨ pod.Status.Phase ≠ "Running" then instances
        else instances ++ [pod])
      acc
    = acc ++ items.filter
        (fun pod => decide (pod.Status.PodIP ≠ "" ∧ pod.Status.Phase = "Running")) := by
  induction items generalizing acc with
  | nil => simp
  | cons pod items ih =>
    rw [List.foldl_cons, ih]
    by_cases h : pod.Status.PodIP = "" ∨ pod.Status.Phase ≠ "Running"
    · have hf : ¬ (pod.Status.PodIP ≠ "" ∧ pod.Status.Phase = "Running") := by tauto
      rw [if_pos h, List.filter_cons_of_neg (by simpa using hf)]
    · have hf : pod.Status.PodIP ≠ "" ∧ pod.Status.Phase = "Running" := by tauto
      rw [if_neg h, List.filter_cons_of_pos (by simpa using hf)]
      simp

theorem readyInstances_eq_filter (items : List Pod) :
    readyInstances items = items.filter
      (fun pod => decide (pod.Status.PodIP ≠ "" ∧ pod.Status.Phase = "Running")) := by
  unfold readyInstances
  rw [readyInstances_foldl]
  simp

/-! ## Fan-out -/

/-- The record the goroutine of index ix appends, if its fetch succeeds. -/
theorem goroutine_stats (env : Env) (instances : List Pod) (ix : Nat) (st : FanState) :
    (goroutine env instances ix st).response.Stats.toList =
      st.response.Stats.toList ++
        ((instances[ix]?.bind fun pod => (fetchStat env ix pod).toOption).toList) ∧
    (goroutine env instances ix st).response.Servers = st.response.Servers ∧
    ((∃ xs, st.response.Stats = .mk xs) →
      ∃ xs, (goroutine env instances ix st).response.Stats = .mk xs) := by
  unfold goroutine
  cases hp : instances[ix]? with
  | none => simp
  | some pod =>
    cases hf : fetchStat env ix pod with
    | error msg => simp [hf, Except.toOption]
    | ok stat => simp [hf, Except.toOption, GoSlice.append, GoSlice.toList]

theorem fanOut_stats (env : Env) (instances : List Pod) (order : List Nat) (st : FanState) :
    (fanOut env instances order st).response.Stats.toList =
      st.response.Stats.toList ++
        order.filterMap (fun ix => instances[ix]?.bind fun pod => (fetchStat env ix pod).toOption) ∧
    (fanOut env instances order st).response.Servers = st.response.Servers ∧
    ((∃ xs, st.response.Stats = .mk xs) →
      ∃ xs, (fanOut env instances order st).response.Stats = .mk xs) := by
  induction order generalizing st with
  | nil => simp [fanOut]
  | cons ix order ih =>
    have hg := goroutine_stats env instances ix st
    have hr := ih (goroutine env instances ix st)
    simp only [fanOut, List.foldl_cons] at hr ⊢
    refine ⟨?_, ?_, ?_⟩
    · rw [hr.1, hg.1, List.filterMap_cons]
      cases instances[ix]?.bind fun pod => (fetchStat env ix pod).toOption with
      | none => simp
      | some s => simp
    · rw [hr.2.1, hg.2.1]
    · intro h
      exact hr.2.2 (hg.2.2 h)

theorem range_filterMap_getElem {β : Type} (l : List Pod) (g : Nat → Pod → Option β) :
    (List.range l.length).filterMap (fun ix => l[ix]?.bind fun pod => g ix pod) =
      l.enum.filterMap (fun ip => g ip.1 ip.2) := by
  induction l using List.reverseRecOn with
  | nil => simp
  | append_singleton l a ih =>
    rw [List.length_append, List.length_singleton, List.range_succ, List.filterMap_append,
      List.enum_append, List.filterMap_append, ← ih]
    congr 1
    · apply List.filterMap_congr
      intro ix hix
      rw [List.mem_range] at hix
      rw [List.getElem?_append_left hix]
    · have hla : (l ++ [a])[l.length]? = some a := by simp
      simp [List.enumFrom, List.filterMap_cons, hla]

theorem fanOut_stdout (env : Env) (instances : List Pod) (order : List Nat) (st : FanState)
    (msg : String) (h : msg ∈ (fanOut env instances order st).stdout) :
    msg ∈ st.stdout ∨
      ∃ ix pod, ix ∈ order ∧ instances[ix]? = some pod ∧ fetchStat env ix pod = .error msg := by
  induction order generalizing st with
  | nil => exact Or.inl (by simpa [fanOut] using h)
  | cons ix order ih =>
    simp only [fanOut, List.foldl_cons] at h
    rcases ih (goroutine env instances ix st) h with h1 | ⟨jx, pod, hj, hp, hf⟩
    · unfold goroutine at h1
      cases hp : instances[ix]? with
      | none =>
        simp only [hp] at h1
        exact Or.inl h1
      | some pod =>
        simp only [hp] at h1
        cases hf : fetchStat env ix pod with
        | error m =>
          simp only [hf, List.mem_append, List.mem_singleton] at h1
          rcases h1 with h1 | h1
          · exact Or.inl h1
          · exact Or.inr ⟨ix, pod, List.mem_cons_self _ _, hp, by rw [hf, h1]⟩
        | ok stat =>
          simp only [hf] at h1
          exact Or.inl h1
    · exact Or.inr ⟨jx, pod, List.mem_cons_of_mem _ hj, hp, hf⟩

/-- C3: the readiness loop keeps a pod exactly when its PodIP is non-empty and
its Phase is Running: for every inventory list the instances are the sublist
of such pods in their original order.  Every other pod is dropped: Servers
counts the kept pods only, and every message printed while the response is
built is the fetch error of a kept pod. -/
theorem readiness_filter_keeps_running_pods (items : List Pod) :
    readyInstances items = items.filter
      (fun pod => decide (pod.Status.PodIP ≠ "" ∧ pod.Status.Phase = "Running")) ∧
    (∀ pod, pod ∈ readyInstances items ↔
      pod ∈ items ∧ pod.Status.PodIP ≠ "" ∧ pod.Status.Phase = "Running") ∧
    (readyInstances items).Sublist items ∧
    (∀ (env : Env) (out : List String),
      (aggregate env items out).response.Servers =
        (items.filter
          (fun pod => decide (pod.Status.PodIP ≠ "" ∧ pod.Status.Phase = "Running"))).length) ∧
    (∀ (env : Env) (out : List String) (msg : String),
      msg ∈ (aggregate env items out).stdout → msg ∈ out ∨
        ∃ ix pod, (readyInstances items)[ix]? = some pod ∧
          (pod.Status.PodIP ≠ "" ∧ pod.Status.Phase = "Running") ∧
          fetchStat env ix pod = .error msg) := by
  have hmem : ∀ pod, pod ∈ readyInstances items ↔
      pod ∈ items ∧ pod.Status.PodIP ≠ "" ∧ pod.Status.Phase = "Running" := by
    intro pod
    rw [readyInstances_eq_filter, List.mem_filter]
    simp
  refine ⟨readyInstances_eq_filter items, hmem, ?_, ?_, ?_⟩
  · rw [readyInstances_eq_filter]
    exact List.filter_sublist _
  · intro env out
    rw [← readyInstances_eq_filter]
    exact (fanOut_stats env (readyInstances items) env.schedule _).2.1
  · intro env out msg h
    rcases fanOut_stdout env (readyInstances items) env.schedule _ msg h with h1 | ⟨ix, pod, -, hp, hf⟩
    · exact Or.inl h1
    · exact Or.inr ⟨ix, pod, hp, ((hmem pod).1 (List.getElem?_mem hp)).2, hf⟩

theorem readiness_filter_keeps_running_pods_witness :
    readyInstances [podA, podPending, podB, podNoIP, podC] = [podA, podB, podC] ∧
    (aggregate scenarioEnv [podA, podPending, podB, podNoIP, podC] []).response.Servers = 3 :=
  ⟨(readiness_filter_keeps_running_pods _).1.trans (by rfl),
    ((readiness_filter_keeps_running_pods _).2.2.2.1 scenarioEnv []).trans (by rfl)⟩

/-- The records collected by the fan-out, for any list of instances and any
valid completion order. -/
theorem fanOut_perm_successes (env : Env) (instances : List Pod) (order : List Nat)
    (out : List String) (h : ValidSchedule order instances.length) :
    ((fanOut env instances order
        { response := { Servers := instances.length, Stats := .mk [] },
          stdout := out }).response.Stats.toList).Perm
      (instances.enum.filterMap fun ip => (fetchStat env ip.1 ip.2).toOption) ∧
    (∀ ix pod stat, instances[ix]? = some pod → fetchStat env ix pod = .ok stat →
      stat ∈ (fanOut env instances order
        { response := { Servers := instances.length, Stats := .mk [] },
          stdout := out }).response.Stats.toList) ∧
    (fanOut env instances order
        { response := { Servers := instances.length, Stats := .mk [] },
          stdout := out }).response.Stats.len =
      (instances.enum.filter fun ip => (fetchStat env ip.1 ip.2).toOption.isSome).length := by
  have hs := (fanOut_stats env instances order
    { response := { Servers := instances.length, Stats := .mk [] }, stdout := out }).1
  have hperm : ((fanOut env instances order
        { response := { Servers := instances.length, Stats := .mk [] },
          stdout := out }).response.Stats.toList).Perm
      (instances.enum.filterMap fun ip => (fetchStat env ip.1 ip.2).toOption) := by
    rw [hs, ← range_filterMap_getElem instances (fun ix pod => (fetchStat env ix pod).toOption)]
    simpa [GoSlice.toList] using List.Perm.filterMap _ h
  refine ⟨hperm, ?_, ?_⟩
  · intro ix pod stat hp hf
    rw [hs]
    have hix : ix ∈ order := by
      have hlt : ix < instances.length := (List.getElem?_eq_some.1 hp).1
      exact (List.Perm.mem_iff h).2 (List.mem_range.2 hlt)
    simp only [GoSlice.toList, List.nil_append, List.mem_filterMap]
    exact ⟨ix, hix, by simp [hp, hf, Except.toOption]⟩
  · unfold GoSlice.len
    rw [hperm.length_eq, List.length_filterMap_eq_countP, List.countP_eq_length_filter]

/-- C1: for every inventory, hence every list of ready pods, every outcome of
the fetch of each pod (a decoded Stat, or a failure at the GET, the read or
the decoding) and every completion order of the goroutines, the Stats of the
aggregated response are a permutation of exactly the records of the ready pods
whose fetch succeeded: the record of each successful pod is present whatever
the other fetches did, and a failed fetch adds no record. -/
theorem aggregate_failure_isolation (env : Env) (items : List Pod) (out : List String)
    (h : ValidSchedule env.schedule (readyInstances items).length) :
    ((aggregate env items out).response.Stats.toList).Perm
      ((readyInstances items).enum.filterMap
        fun ip => (fetchStat env ip.1 ip.2).toOption) ∧
    (∀ ix pod stat, (readyInstances items)[ix]? = some pod →
      fetchStat env ix pod = .ok stat →
      stat ∈ (aggregate env items out).response.Stats.toList) ∧
    (aggregate env items out).response.Stats.len =
      ((readyInstances items).enum.filter
        fun ip => (fetchStat env ip.1 ip.2).toOption.isSome).length :=
  fanOut_perm_successes env (readyInstances items) env.schedule out h

theorem aggregate_failure_isolation_witness :
    ValidSchedule scenarioEnv.schedule
      (readyInstances [podA, podPending, podB, podNoIP, podC]).length ∧
    ((aggregate scenarioEnv [podA, podPending, podB, podNoIP, podC]
        []).response.Stats.toList).Perm
      ((readyInstances [podA, podPending, podB, podNoIP, podC]).enum.filterMap
        fun ip => (fetchStat scenarioEnv ip.1 ip.2).toOption) ∧
    (aggregate scenarioEnv [podA, podPending, podB, podNoIP, podC]
        []).response.Stats.toList = [statB, statA] ∧
    (readyInstances [podA, podPending, podB, podNoIP, podC]).enum.filterMap
        (fun ip => (fetchStat scenarioEnv ip.1 ip.2).toOption) = [statA, statB] :=
  ⟨by unfold ValidSchedule; decide,
    (aggregate_failure_isolation scenarioEnv [podA, podPending, podB, podNoIP, podC] []
      (by unfold ValidSchedule; decide)).1,
    by rfl, by rfl⟩

/-! ## Published response -/

theorem loadData_of_discover (env : Env) (p : Process) (items : List Pod)
    (hd : discover env = .ok items) :
    loadData env p =
      match env.jsonMarshal (aggregate env items p.stdout).response with
      | .error err =>
        { serveData := [],
          stdout := (aggregate env items p.stdout).stdout ++
            ["Error marshaling: " ++ err] ++ ["Updated.\n"] }
      | .ok data =>
        { serveData := data,
          stdout := (aggregate env items p.stdout).stdout ++ ["Updated.\n"] } := by
  unfold loadData
  rw [hd]
  cases hm : env.jsonMarshal (aggregate env items p.stdout).response <;> simp [setData, hm]

/-- C2: in every cycle that gets past the inventory listing, whatever the
fetch outcomes, the response that is serialised and published has Servers
equal to the number of ready pods of the listing, and its number of Stats is
at most Servers. -/
theorem servers_counts_ready_pods (env : Env) (items : List Pod) (p : Process)
    (hd : discover env = .ok items)
    (h : ValidSchedule env.schedule (readyInstances items).length) :
    (aggregate env items p.stdout).response.Servers =
      (items.filter
        (fun pod => decide (pod.Status.PodIP ≠ "" ∧ pod.Status.Phase = "Running"))).length ∧
    (aggregate env items p.stdout).response.Stats.len ≤
      (aggregate env items p.stdout).response.Servers ∧
    (∀ data, env.jsonMarshal (aggregate env items p.stdout).response = .ok data →
      (getData (loadData env p)).1 = data) := by
  have hs := fanOut_stats env (readyInstances items) env.schedule
    { response := { Servers := (readyInstances items).length, Stats := .mk [] },
      stdout := p.stdout }
  have hservers : (aggregate env items p.stdout).response.Servers =
      (readyInstances items).length := hs.2.1
  refine ⟨?_, ?_, ?_⟩
  · rw [hservers, readyInstances_eq_filter]
  · rw [hservers]
    unfold GoSlice.len aggregate
    rw [hs.1]
    simp only [GoSlice.toList, List.nil_append]
    calc (List.filterMap _ env.schedule).length
        ≤ env.schedule.length := List.length_filterMap_le _ _
      _ = (List.range (readyInstances items).length).length := List.Perm.length_eq h
      _ = (readyInstances items).length := List.length_range _
  · intro data hm
    rw [loadData_of_discover env p items hd, hm]
    rfl

theorem servers_counts_ready_pods_witness :
    (discover scenarioEnv = .ok [podA, podPending, podB, podNoIP, podC] ∧
      ValidSchedule scenarioEnv.schedule
        (readyInstances [podA, podPending, podB, podNoIP, podC]).length) ∧
    (aggregate scenarioEnv [podA, podPending, podB, podNoIP, podC]
        Process.initial.stdout).response.Servers = 3 ∧
    (aggregate scenarioEnv [podA, podPending, podB, podNoIP, podC]
        Process.initial.stdout).response.Stats.len = 2 ∧
    (aggregate scenarioEnv [podA, podPending, podB, podNoIP, podC]
        Process.initial.stdout).response.Stats.len ≤
      (aggregate scenarioEnv [podA, podPending, podB, podNoIP, podC]
        Process.initial.stdout).response.Servers :=
  ⟨⟨by rfl, by unfold ValidSchedule; decide⟩, by rfl, by rfl,
    (servers_counts_ready_pods scenarioEnv [podA, podPending, podB, podNoIP, podC]
      Process.initial (by rfl) (by unfold ValidSchedule; decide)).2.1⟩

/-! ## Discovery failure -/

/-- C5: when discovery fails (the client config, the client, the parse of a
non-empty label selector, or the pod listing returns an error), loadData
prints that one error and returns without calling setData: getData after the
cycle returns what it returned before, which is the empty start value when
nothing was published yet. -/
theorem discovery_failure_keeps_snapshot (env : Env) (p : Process)
    (h : (∃ e, env.inClusterConfig = .error e) ∨
      (∃ config e, env.inClusterConfig = .ok config ∧ env.newForConfig config = .error e) ∨
      (∃ config c e, env.inClusterConfig = .ok config ∧ env.newForConfig config = .ok c ∧
        env.selector ≠ "" ∧ env.labelsParse env.selector = .error e) ∨
      (∃ config c e, env.inClusterConfig = .ok config ∧ env.newForConfig config = .ok c ∧
        ((env.selector ≠ "" ∧ ∃ sel, env.labelsParse env.selector = .ok sel ∧
            env.podsList c sel = .error e) ∨
          (env.selector = "" ∧ env.podsList c env.labelsEverything = .error e)))) :
    (getData (loadData env p)).1 = (getData p).1 ∧
    (∃ msg, loadData env p = { p with stdout := p.stdout ++ [msg] }) ∧
    (getData (loadData env Process.initial)).1 = [] := by
  have hdisc : ∃ msg, discover env = .error msg := by
    rcases h with ⟨e, h1⟩ | ⟨config, e, h1, h2⟩ | ⟨config, c, e, h1, h2, h3, h4⟩ |
      ⟨config, c, e, h1, h2, h3⟩
    · exact ⟨"Error creating client config: " ++ e, by simp [discover, h1]⟩
    · exact ⟨"Error creating client: " ++ e, by simp [discover, h1, h2]⟩
    · exact ⟨"Parse label selector err: " ++ e, by simp [discover, h1, h2, h3, h4]⟩
    · rcases h3 with ⟨h3, sel, h4, h5⟩ | ⟨h3, h5⟩
      · exact ⟨"Error getting pods: " ++ e, by simp [discover, h1, h2, h3, h4, h5]⟩
      · exact ⟨"Error getting pods: " ++ e, by simp [discover, h1, h2, h3, h5]⟩
  obtain ⟨msg, hmsg⟩ := hdisc
  have hload : ∀ q : Process, loadData env q = { q with stdout := q.stdout ++ [msg] } := by
    intro q
    unfold loadData
    rw [hmsg]
  refine ⟨?_, ⟨msg, hload p⟩, ?_⟩
  · rw [hload]; rfl
  · rw [hload]; rfl

theorem discovery_failure_keeps_snapshot_witness :
    (getData (loadData { scenarioEnv with inClusterConfig := .error "no service account" }
      publishedProcess)).1 = (getData publishedProcess).1 ∧
    (getData (loadData { scenarioEnv with newForConfig := fun _ => .error "bad host" }
      publishedProcess)).1 = (getData publishedProcess).1 ∧
    (getData (loadData
      { scenarioEnv with selector := "app=", labelsParse := fun _ => .error "bad selector" }
      publishedProcess)).1 = (getData publishedProcess).1 ∧
    (getData (loadData { scenarioEnv with podsList := fun _ _ => .error "forbidden" }
      publishedProcess)).1 = (getData publishedProcess).1 :=
  ⟨(discovery_failure_keeps_snapshot _ publishedProcess (Or.inl ⟨_, rfl⟩)).1,
    (discovery_failure_keeps_snapshot _ publishedProcess
      (Or.inr (Or.inl ⟨{ id := 0 }, _, rfl, rfl⟩))).1,
    (discovery_failure_keeps_snapshot _ publishedProcess
      (Or.inr (Or.inr (Or.inl ⟨{ id := 0 }, { id := 0 }, _, rfl, rfl, by decide, rfl⟩)))).1,
    (discovery_failure_keeps_snapshot _ publishedProcess
      (Or.inr (Or.inr (Or.inr
        ⟨{ id := 0 }, { id := 0 }, _, rfl, rfl, Or.inr ⟨rfl, rfl⟩⟩)))).1⟩

/-! ## Empty fleet -/

theorem fanOut_nil (env : Env) (order : List Nat) (st : FanState) :
    fanOut env [] order st = st := by
  induction order generalizing st with
  | nil => rfl
  | cons ix order ih =>
    simp only [fanOut, List.foldl_cons] at ih ⊢
    rw [show goroutine env [] ix st = st by simp [goroutine]]
    exact ih st

theorem jsonMarshalResponse_empty (encodeStat : Stat → Except String Bytes) :
    jsonMarshalResponse encodeStat { Servers := 0, Stats := .mk [] } =
      .ok (asciiBytes "\x7b\"servers\":0,\"stats\":[]\x7d") := by
  rfl

/-- C9: when the inventory lists no ready pod (no pod at all, or only pods
that fail the readiness test), the cycle builds the response with Servers 0
and a non-nil empty Stats, and with the JSON wire format publishes exactly the
document with servers 0 and stats the empty array, not null. -/
theorem no_ready_pod_publishes_empty_document (env : Env) (p : Process) (items : List Pod)
    (encodeStat : Stat → Except String Bytes)
    (hd : discover env = .ok items)
    (hr : ∀ pod ∈ items, pod.Status.PodIP = "" ∨ pod.Status.Phase ≠ "Running")
    (hm : env.jsonMarshal = jsonMarshalResponse encodeStat) :
    (aggregate env items p.stdout).response = { Servers := 0, Stats := .mk [] } ∧
    (getData (loadData env p)).1 = asciiBytes "\x7b\"servers\":0,\"stats\":[]\x7d" ∧
    (getData (loadData env p)).1 ≠ asciiBytes "\x7b\"servers\":0,\"stats\":null\x7d" ∧
    (getData (loadData env p)).1 ≠ asciiBytes "\x7b\"servers\":0\x7d" := by
  have hnil : readyInstances items = [] := by
    rw [readyInstances_eq_filter, List.filter_eq_nil_iff]
    intro pod hpod
    have := hr pod hpod
    simp only [decide_eq_true_eq]
    tauto
  have hagg : aggregate env items p.stdout =
      { response := { Servers := 0, Stats := .mk [] }, stdout := p.stdout } := by
    unfold aggregate
    rw [hnil]
    exact fanOut_nil env env.schedule _
  have hdata : (getData (loadData env p)).1 =
      asciiBytes "\x7b\"servers\":0,\"stats\":[]\x7d" := by
    rw [loadData_of_discover env p items hd, hagg, hm]
    simp only [jsonMarshalResponse_empty]
    rfl
  refine ⟨by rw [hagg], hdata, ?_, ?_⟩
  · rw [hdata]; decide
  · rw [hdata]; decide

theorem no_ready_pod_publishes_empty_document_witness :
    (discover noReadyPodEnv = .ok [podPending, podNoIP] ∧
      (∀ pod ∈ [podPending, podNoIP], pod.Status.PodIP = "" ∨ pod.Status.Phase ≠ "Running")) ∧
    (getData (loadData noReadyPodEnv publishedProcess)).1 =
      asciiBytes "\x7b\"servers\":0,\"stats\":[]\x7d" :=
  ⟨⟨by rfl, by decide⟩,
    (no_ready_pod_publishes_empty_document noReadyPodEnv publishedProcess
      [podPending, podNoIP] scenarioEncodeStat (by rfl) (by decide) (by rfl)).2.1⟩

/-! ## Serialisation failure -/

/-- Lines 184-188 as written, for any environment: when json.Marshal returns
an error the message is printed and setData is still called, with no data. -/
theorem loadData_marshal_error (env : Env) (p : Process) (items : List Pod) (err : String)
    (hd : discover env = .ok items)
    (hm : env.jsonMarshal (aggregate env items p.stdout).response = .error err) :
    (getData (loadData env p)).1 = [] ∧
    "Error marshaling: " ++ err ∈ (loadData env p).stdout := by
  rw [loadData_of_discover env p items hd, hm]
  exact ⟨rfl, by simp⟩

end Aggregator
